import Mathlib

/-!
Verification of the ISPConfig remote-API client and state-reconciliation
layer of the terraform-provider-ispconfig repository.

Shallow embedding, translated from the Go sources:
* JSON values and the flexible scalar decoder (`FlexInt.UnmarshalJSON`),
* the boolean wire coercions (`boolToYN` / `ynToBool`),
* the document-root path composer (`combineDocumentRoot`) together with the
  reverse composition performed by `webHostingResource.Update`,
* the PHP capability descriptor parsing (`ParsePHPVersion`) and the cached
  version maps (`ensurePHPVersionMap`),
* the scope-field default resolution performed by the Create/Update methods,
* the version-0 state upgraders,
* the session client login step.
-/

/-- A JSON value as seen by Go's `encoding/json` after generic decoding.
Numbers are represented by their integer part together with a flag telling
whether the literal had a nonzero fractional part (`frac = true` means the
number is not integral, so Go refuses to unmarshal it into `int`). -/
inductive JsonValue where
  | jnull : JsonValue
  | jbool (b : Bool) : JsonValue
  | jnum (n : ℤ) (frac : Bool) : JsonValue
  | jstr (s : String) : JsonValue
  | jarr (xs : List JsonValue) : JsonValue
  | jobj (fields : List (String × JsonValue)) : JsonValue

/-- Largest value of Go's 64-bit `int`. -/
def int64Max : ℤ := 2 ^ 63 - 1

/-- Smallest value of Go's 64-bit `int`. -/
def int64Min : ℤ := -(2 ^ 63)

/-- Is `c` an ASCII decimal digit? (Used by the `strconv.Atoi` model.) -/
def isDigitChar (c : Char) : Bool := '0' ≤ c && c ≤ '9'

/-- Numeric value of an ASCII digit character. -/
def digitVal (c : Char) : ℕ := c.toNat - '0'.toNat

/-- Parse a nonempty all-digit run into its value, as `strconv.ParseInt`
does for the digit part: left fold `acc * 10 + digit`. -/
def parseDigits (l : List Char) : Option ℕ :=
  if l ≠ [] ∧ l.all isDigitChar then
    some (l.foldl (fun a c => a * 10 + digitVal c) 0)
  else none

/-- Model of Go's `strconv.Atoi` (i.e. `strconv.ParseInt` base 10, 64-bit):
an optional sign followed by at least one digit; any syntax or range
failure yields `none` (Go returns `ErrSyntax` / `ErrRange`). -/
def goAtoi (l : List Char) : Option ℤ :=
  match l with
  | [] => none
  | c :: rest =>
    if c = '+' then
      (parseDigits rest).bind fun v =>
        if (v : ℤ) ≤ int64Max then some (v : ℤ) else none
    else if c = '-' then
      (parseDigits rest).bind fun v =>
        if (v : ℤ) ≤ 2 ^ 63 then some (-(v : ℤ)) else none
    else
      (parseDigits l).bind fun v =>
        if (v : ℤ) ≤ int64Max then some (v : ℤ) else none

/-- Model of `FlexInt.UnmarshalJSON` (client/types.go).  The Go method
first tries `json.Unmarshal` into `int` (succeeds for an integral in-range
number, and for `null`, which leaves the fresh zero-valued `int`
untouched); then tries `json.Unmarshal` into `string` (succeeds exactly
for JSON strings: empty string becomes `0`, otherwise `strconv.Atoi`,
whose failure is the only error path); for every other shape the method
falls through to `return nil`, leaving the previous value `prev` in place
and reporting no error. -/
def flexIntUnmarshalJSON (prev : ℤ) (v : JsonValue) : Except String ℤ :=
  match v with
  | .jnull => .ok 0
  | .jnum n frac =>
    if frac = false ∧ int64Min ≤ n ∧ n ≤ int64Max then .ok n else .ok prev
  | .jstr s =>
    if s = "" then .ok 0
    else
      match goAtoi s.data with
      | some v => .ok v
      | none => .error "invalid integer string"
  | _ => .ok prev

/-- The ASCII character of a decimal digit. -/
def decChar (d : ℕ) : Char :=
  match d with
  | 0 => '0' | 1 => '1' | 2 => '2' | 3 => '3' | 4 => '4'
  | 5 => '5' | 6 => '6' | 7 => '7' | 8 => '8' | _ => '9'

/-- Decimal digits of `n`, least significant first. -/
def natDecRev (n : ℕ) : List Char :=
  if h : n < 10 then [decChar n]
  else decChar (n % 10) :: natDecRev (n / 10)
termination_by n
decreasing_by
  exact Nat.div_lt_self (by omega) (by omega)

/-- The decimal string of `n`, most significant digit first. -/
def natDecString (n : ℕ) : String := ⟨(natDecRev n).reverse⟩

theorem digitVal_decChar {d : ℕ} (h : d < 10) : digitVal (decChar d) = d := by
  interval_cases d <;> decide

theorem isDigitChar_decChar {d : ℕ} (h : d < 10) : isDigitChar (decChar d) = true := by
  interval_cases d <;> decide

theorem natDecRev_ne_nil (n : ℕ) : natDecRev n ≠ [] := by
  unfold natDecRev
  split <;> simp

theorem natDecRev_all_digits (n : ℕ) : (natDecRev n).all isDigitChar = true := by
  unfold natDecRev
  split
  · next h => simp [isDigitChar_decChar h]
  · next h =>
    have ih := natDecRev_all_digits (n / 10)
    simp [List.all_cons, ih, isDigitChar_decChar (Nat.mod_lt n (by omega))]
termination_by n
decreasing_by
  exact Nat.div_lt_self (by omega) (by omega)

theorem natDecRev_foldr (n : ℕ) :
    (natDecRev n).foldr (fun c a => a * 10 + digitVal c) 0 = n := by
  unfold natDecRev
  split
  · next h => simp [digitVal_decChar h]
  · next h =>
    have ih := natDecRev_foldr (n / 10)
    simp only [List.foldr_cons, ih, digitVal_decChar (Nat.mod_lt n (by omega))]
    omega
termination_by n
decreasing_by
  exact Nat.div_lt_self (by omega) (by omega)

theorem parseDigits_natDecRev (n : ℕ) :
    parseDigits (natDecRev n).reverse = some n := by
  have hne : (natDecRev n).reverse ≠ [] := by
    simp [natDecRev_ne_nil n]
  have hall : ((natDecRev n).reverse).all isDigitChar = true := by
    simpa [List.all_reverse] using natDecRev_all_digits n
  have hfold :
      ((natDecRev n).reverse).foldl (fun a c => a * 10 + digitVal c) 0 = n := by
    rw [List.foldl_reverse]
    exact natDecRev_foldr n
  simp [parseDigits, hne, hall, hfold]

theorem isDigitChar_ne_plus {c : Char} (h : isDigitChar c = true) : c ≠ '+' := by
  intro he; subst he; simp [isDigitChar] at h

theorem isDigitChar_ne_minus {c : Char} (h : isDigitChar c = true) : c ≠ '-' := by
  intro he; subst he; simp [isDigitChar] at h

theorem goAtoi_digits (l : List Char) (hne : l ≠ []) (hall : l.all isDigitChar = true)
    (v : ℕ) (hv : parseDigits l = some v) (hb : (v : ℤ) ≤ int64Max) :
    goAtoi l = some (v : ℤ) := by
  cases l with
  | nil => exact absurd rfl hne
  | cons c rest =>
    have hc : isDigitChar c = true := by
      rw [List.all_cons] at hall
      exact (Bool.and_eq_true _ _).mp hall |>.1
    simp only [goAtoi, if_neg (isDigitChar_ne_plus hc), if_neg (isDigitChar_ne_minus hc),
      hv, Option.some_bind, if_pos hb]

/-- Claim C1, counterexample: the claim states that a boolean input to the
Flexible Scalar Decoder is a decoding error, but `FlexInt.UnmarshalJSON`
falls through to `return nil` for a boolean, reporting success and leaving
the previously stored value (here `7`) unchanged. -/
theorem C1_counterexample :
    flexIntUnmarshalJSON 7 (JsonValue.jbool true) = Except.ok 7 := rfl

/-- Claim C1 (amended): `FlexInt.UnmarshalJSON` accepts a native integral
in-range number as that integer, parses a numeric string, decodes the
empty string (and `null`) to `0`, and errors exactly on a non-empty
non-numeric string; every other shape (boolean, object, array, fractional
or out-of-range number) is silently ignored: no error is reported and the
previous value is left unchanged. -/
theorem C1_flexIntUnmarshalJSON_behavior (prev : ℤ) :
    (∀ n : ℤ, int64Min ≤ n → n ≤ int64Max →
      flexIntUnmarshalJSON prev (JsonValue.jnum n false) = Except.ok n)
    ∧ (∀ (s : String) (i : ℤ), s ≠ "" → goAtoi s.data = some i →
      flexIntUnmarshalJSON prev (JsonValue.jstr s) = Except.ok i)
    ∧ flexIntUnmarshalJSON prev (JsonValue.jstr "") = Except.ok 0
    ∧ (∀ s : String, s ≠ "" → goAtoi s.data = none →
      flexIntUnmarshalJSON prev (JsonValue.jstr s) = Except.error "invalid integer string")
    ∧ (∀ b : Bool, flexIntUnmarshalJSON prev (JsonValue.jbool b) = Except.ok prev)
    ∧ (∀ xs : List JsonValue, flexIntUnmarshalJSON prev (JsonValue.jarr xs) = Except.ok prev)
    ∧ (∀ fs : List (String × JsonValue),
      flexIntUnmarshalJSON prev (JsonValue.jobj fs) = Except.ok prev)
    ∧ flexIntUnmarshalJSON prev JsonValue.jnull = Except.ok 0
    ∧ (∀ n : ℤ, flexIntUnmarshalJSON prev (JsonValue.jnum n true) = Except.ok prev) := by
  refine ⟨?_, ?_, rfl, ?_, fun _ => rfl, fun _ => rfl, fun _ => rfl, rfl, ?_⟩
  · intro n h1 h2
    simp [flexIntUnmarshalJSON, h1, h2]
  · intro s i hs hatoi
    simp [flexIntUnmarshalJSON, hs, hatoi]
  · intro s hs hatoi
    simp [flexIntUnmarshalJSON, hs, hatoi]
  · intro n
    simp [flexIntUnmarshalJSON]

/-- Claim C1, witness: the amended theorem applied to concrete inputs;
decoding the numeric string `"42"` over a previous value of `5` yields `42`. -/
theorem C1_witness :
    flexIntUnmarshalJSON 5 (JsonValue.jstr "42") = Except.ok 42 :=
  (C1_flexIntUnmarshalJSON_behavior 5).2.1 "42" 42 (by decide) rfl

/-- Claim C7, counterexample: at `n = 2^63` (one past the largest 64-bit
int) decoding the JSON number `n` and decoding the JSON string `"n"` do
not yield the same result: the number falls outside `int` range so the
decoder silently keeps the previous value `0`, while the numeric string
makes `strconv.Atoi` fail with a range error that is propagated. -/
theorem C7_counterexample :
    flexIntUnmarshalJSON 0 (JsonValue.jnum 9223372036854775808 false) = Except.ok 0
    ∧ flexIntUnmarshalJSON 0 (JsonValue.jstr "9223372036854775808")
      = Except.error "invalid integer string" :=
  ⟨rfl, rfl⟩

/-- Claim C7 (amended): for every natural `n` that fits in a 64-bit int,
decoding the JSON number `n` and decoding the JSON decimal string of `n`
through the Flexible Scalar Decoder both yield `n`, and decoding the empty
string yields `0`. -/
theorem C7_flexInt_num_string_agree (prev : ℤ) (n : ℕ) (hb : (n : ℤ) ≤ int64Max) :
    flexIntUnmarshalJSON prev (JsonValue.jnum n false) = Except.ok n
    ∧ flexIntUnmarshalJSON prev (JsonValue.jstr (natDecString n)) = Except.ok n
    ∧ flexIntUnmarshalJSON prev (JsonValue.jstr "") = Except.ok 0 := by
  refine ⟨?_, ?_, rfl⟩
  · have h1 : int64Min ≤ (n : ℤ) := by
      have : (0 : ℤ) ≤ (n : ℤ) := Int.natCast_nonneg n
      simp only [int64Min]; omega
    simp [flexIntUnmarshalJSON, h1, hb]
  · have hne : natDecString n ≠ "" := by
      simp only [natDecString, ne_eq, String.ext_iff]
      simpa using natDecRev_ne_nil n
    have hdata : (natDecString n).data = (natDecRev n).reverse := rfl
    have hall : ((natDecRev n).reverse).all isDigitChar = true := by
      simpa [List.all_reverse] using natDecRev_all_digits n
    have hrevne : (natDecRev n).reverse ≠ [] := by
      simpa using natDecRev_ne_nil n
    have hatoi : goAtoi (natDecString n).data = some (n : ℤ) := by
      rw [hdata]
      exact goAtoi_digits _ hrevne hall n (parseDigits_natDecRev n) hb
    simp [flexIntUnmarshalJSON, hne, hatoi]

/-- Claim C7, witness: the amended theorem at `n = 12345`. -/
theorem C7_witness :
    flexIntUnmarshalJSON 0 (JsonValue.jstr (natDecString 12345)) = Except.ok 12345 :=
  (C7_flexInt_num_string_agree 0 12345 (by decide)).2.1

/-- `boolToYN` (resource_web_hosting.go): encode a native boolean to the
two-character wire encoding. -/
def boolToYN (b : Bool) : String := if b then "y" else "n"

/-- `ynToBool` (resource_web_hosting.go): decode the wire encoding; true
exactly for `"y"` or `"Y"`. -/
def ynToBool (s : String) : Bool := s = "y" || s = "Y"

/-- `webDBBoolToYN` (resource_web_database.go), identical to `boolToYN`. -/
def webDBBoolToYN (b : Bool) : String := if b then "y" else "n"

/-- `webDBYNToBool` (resource_web_database.go), identical to `ynToBool`. -/
def webDBYNToBool (s : String) : Bool := s = "y" || s = "Y"

/-- `webUserBoolToYN` (resource_web_user.go), identical to `boolToYN`. -/
def webUserBoolToYN (b : Bool) : String := if b then "y" else "n"

/-- `webUserYNToBool` (resource_web_user.go), identical to `ynToBool`. -/
def webUserYNToBool (s : String) : Bool := s = "y" || s = "Y"

/-- Claim C8 (confirmed): for both coercion pairs (web hosting and web
database), `FromWire (ToWire b) = b` for every boolean; `FromWire` is true
exactly for the strings `"y"` and `"Y"`, and false for everything else,
including `""` and `"n"`. -/
theorem C8_bool_coercion_roundtrip :
    (∀ b : Bool, ynToBool (boolToYN b) = b)
    ∧ (∀ b : Bool, webDBYNToBool (webDBBoolToYN b) = b)
    ∧ (∀ s : String, ynToBool s = true ↔ (s = "y" ∨ s = "Y"))
    ∧ (∀ s : String, webDBYNToBool s = true ↔ (s = "y" ∨ s = "Y"))
    ∧ ynToBool "Y" = true ∧ ynToBool "" = false ∧ ynToBool "n" = false
    ∧ webDBYNToBool "" = false ∧ webDBYNToBool "n" = false := by
  refine ⟨fun b => ?_, fun b => ?_, fun s => ?_, fun s => ?_, rfl, rfl, rfl, rfl, rfl⟩
  · cases b <;> rfl
  · cases b <;> rfl
  · simp [ynToBool]
  · simp [webDBYNToBool]

/-- A Terraform attribute value as seen by a state upgrader: null, unknown,
or a concrete value. -/
inductive AttrVal (α : Type) where
  | null : AttrVal α
  | unknown : AttrVal α
  | val (a : α) : AttrVal α
deriving DecidableEq

/-- The `active` conversion inside `webUserResource.UpgradeState`
(resource_web_user.go): if the version-0 string attribute is neither null
nor unknown it is decoded with `webUserYNToBool`, otherwise the documented
default `true` is used. -/
def webUserUpgradeActive (old : AttrVal String) : Bool :=
  match old with
  | .val s => webUserYNToBool s
  | _ => true

/-- The `active` conversion inside `webDatabaseResource.UpgradeState`
(resource_web_database.go), same shape as the shell-user one. -/
def webDatabaseUpgradeActive (old : AttrVal String) : Bool :=
  match old with
  | .val s => webDBYNToBool s
  | _ => true

/-- A stored `active` field across schema versions: version 0 keeps the
wire string (possibly null/unknown), version 1 keeps a native boolean. -/
inductive StoredActive where
  | v0 (a : AttrVal String) : StoredActive
  | v1 (b : Bool) : StoredActive
deriving DecidableEq

/-- The upgrade entry point for the shell-user resource.  `UpgradeState`
returns a map holding an upgrader for version 0 only, and the plugin
framework invokes an upgrader only for state still stored at that prior
version; state already at the current version is passed through untouched. -/
def webUserUpgradeStored (s : StoredActive) : StoredActive :=
  match s with
  | .v0 a => .v1 (webUserUpgradeActive a)
  | .v1 b => .v1 b

/-- The upgrade entry point for the database resource, same dispatch. -/
def webDatabaseUpgradeStored (s : StoredActive) : StoredActive :=
  match s with
  | .v0 a => .v1 (webDatabaseUpgradeActive a)
  | .v1 b => .v1 b

/-- Claim C2, counterexample: the claim says migrating a record whose
`active` field is the string `"n"` yields the documented default `true`,
but both upgraders decode `"n"` through the `FromWire` semantics, which
yields `false`. -/
theorem C2_counterexample :
    webUserUpgradeStored (StoredActive.v0 (AttrVal.val "n")) = StoredActive.v1 false
    ∧ webDatabaseUpgradeStored (StoredActive.v0 (AttrVal.val "n")) = StoredActive.v1 false :=
  ⟨rfl, rfl⟩

/-- Claim C2 (amended): for both version-0-to-version-1 upgraders,
migrating a stored `active` of `"y"` yields `true`; a null (absent) or
unknown value yields the documented default `true`; a present value is
decoded by the `FromWire` semantics (so `"n"` yields `false`, not the
default); and re-applying the upgrade to an already-migrated native
boolean is a no-op, not an error. -/
theorem C2_upgrade_state_behavior :
    (webUserUpgradeStored (StoredActive.v0 (AttrVal.val "y")) = StoredActive.v1 true)
    ∧ (webDatabaseUpgradeStored (StoredActive.v0 (AttrVal.val "y")) = StoredActive.v1 true)
    ∧ (webUserUpgradeStored (StoredActive.v0 AttrVal.null) = StoredActive.v1 true)
    ∧ (webDatabaseUpgradeStored (StoredActive.v0 AttrVal.null) = StoredActive.v1 true)
    ∧ (∀ s : String, webUserUpgradeStored (StoredActive.v0 (AttrVal.val s))
        = StoredActive.v1 (webUserYNToBool s))
    ∧ (∀ s : String, webDatabaseUpgradeStored (StoredActive.v0 (AttrVal.val s))
        = StoredActive.v1 (webDBYNToBool s))
    ∧ (∀ b : Bool, webUserUpgradeStored (StoredActive.v1 b) = StoredActive.v1 b)
    ∧ (∀ b : Bool, webDatabaseUpgradeStored (StoredActive.v1 b) = StoredActive.v1 b) :=
  ⟨rfl, rfl, rfl, rfl, fun _ => rfl, fun _ => rfl, fun _ => rfl, fun _ => rfl⟩

/-- The scope fields a resource plan can set explicitly (`types.Int64`,
null when unset). -/
structure ScopePlan where
  clientID : Option ℤ
  serverID : Option ℤ

/-- The provider-level global defaults (`r.clientID` / `r.serverID`,
zero-valued when not configured). -/
structure ProviderDefaults where
  clientID : ℤ
  serverID : ℤ

/-- Outcome of the scope checks at the top of `webHostingResource.Create`
(and `Update`): either a Configuration error naming the missing field, or
the resolved pair with which the remote call proceeds. -/
inductive HostingScopeResult where
  | configError (field : String) : HostingScopeResult
  | proceed (clientID serverID : ℤ) : HostingScopeResult
deriving DecidableEq

/-- `clientID := r.clientID; if !plan.ClientID.IsNull() { clientID = plan }`
from `webHostingResource.Create`. -/
def resolvedClientID (prov : ProviderDefaults) (plan : ScopePlan) : ℤ :=
  match plan.clientID with
  | some v => v
  | none => prov.clientID

/-- `serverID := r.serverID; if !plan.ServerID.IsNull() { serverID = plan }`
from `webHostingResource.Create`. -/
def resolvedServerID (prov : ProviderDefaults) (plan : ScopePlan) : ℤ :=
  match plan.serverID with
  | some v => v
  | none => prov.serverID

/-- The scope-resolution part of `webHostingResource.Create`: missing
client id or server id aborts with a Configuration error naming the field,
before any remote call. -/
def webHostingResolveScope (prov : ProviderDefaults) (plan : ScopePlan) :
    HostingScopeResult :=
  let clientID := resolvedClientID prov plan
  if clientID = 0 then .configError "Client ID"
  else
    let serverID := resolvedServerID prov plan
    if serverID = 0 then .configError "Server ID"
    else .proceed clientID serverID

/-- The `server_id` resolution of `webDatabaseResource.Create` (and
`Update`): explicit plan value first; otherwise the value inherited from
the parent hosting domain (`GetWebDomain`, used only when the lookup
succeeds and the parent's server id is nonzero); otherwise the provider
default when nonzero; otherwise the struct's zero value. -/
def webDatabaseResolveServerID (planServerID : Option ℤ)
    (parentLookup : Except String ℤ) (provServerID : ℤ) : ℤ :=
  match planServerID with
  | some v => v
  | none =>
    match parentLookup with
    | .ok p =>
      if p ≠ 0 then p
      else if provServerID ≠ 0 then provServerID else 0
    | .error _ => if provServerID ≠ 0 then provServerID else 0

/-- Claim C3 (confirmed): the resolved server id is the resource-level
explicit value when set; otherwise (for the database) the value inherited
from the parent hosting domain; otherwise the provider-level default; and
when the required server id of the hosting-domain resource resolves from
no source, Create fails with a Configuration error naming the field and
never proceeds to a remote call with a zero value. -/
theorem C3_scope_resolution (prov : ProviderDefaults) (plan : ScopePlan)
    (parentLookup : Except String ℤ) (provServerID : ℤ) :
    (∀ v : ℤ, plan.serverID = some v → resolvedServerID prov plan = v)
    ∧ (plan.serverID = none → resolvedServerID prov plan = prov.serverID)
    ∧ (resolvedClientID prov plan ≠ 0 → resolvedServerID prov plan = 0 →
      webHostingResolveScope prov plan = .configError "Server ID")
    ∧ (∀ c s : ℤ, webHostingResolveScope prov plan = .proceed c s → c ≠ 0 ∧ s ≠ 0)
    ∧ (∀ v : ℤ, webDatabaseResolveServerID (some v) parentLookup provServerID = v)
    ∧ (∀ p : ℤ, p ≠ 0 →
      webDatabaseResolveServerID none (.ok p) provServerID = p)
    ∧ (∀ e : String, provServerID ≠ 0 →
      webDatabaseResolveServerID none (.error e) provServerID = provServerID)
    ∧ (provServerID ≠ 0 →
      webDatabaseResolveServerID none (.ok 0) provServerID = provServerID) := by
  refine ⟨?_, ?_, ?_, ?_, fun v => rfl, ?_, ?_, ?_⟩
  · intro v h; simp [resolvedServerID, h]
  · intro h; simp [resolvedServerID, h]
  · intro hc hs
    simp [webHostingResolveScope, hc, hs]
  · intro c s h
    by_cases hc : resolvedClientID prov plan = 0
    · simp [webHostingResolveScope, hc] at h
    · by_cases hs : resolvedServerID prov plan = 0
      · simp [webHostingResolveScope, hc, hs] at h
      · simp [webHostingResolveScope, hc, hs] at h
        exact ⟨h.1 ▸ hc, h.2 ▸ hs⟩
  · intro p hp; simp [webDatabaseResolveServerID, hp]
  · intro e hp; simp [webDatabaseResolveServerID, hp]
  · intro hp; simp [webDatabaseResolveServerID, hp]

/-- Claim C3, witness: all three sources unset for the hosting domain's
required server id yields the Configuration error; and with the plan unset
and parent server id 3 the database inherits 3. -/
theorem C3_witness :
    webHostingResolveScope ⟨1, 0⟩ ⟨none, none⟩ = HostingScopeResult.configError "Server ID"
    ∧ webDatabaseResolveServerID none (Except.ok 3) 1 = 3 :=
  ⟨(C3_scope_resolution ⟨1, 0⟩ ⟨none, none⟩ (Except.ok 3) 1).2.2.1
      (by decide) (by decide),
    (C3_scope_resolution ⟨1, 0⟩ ⟨none, none⟩ (Except.ok 3) 1).2.2.2.2.2.1 3 (by decide)⟩

/-- The mutable client state touched by `Client.Login`: the stored session
token (`c.sessionID`). -/
structure ClientState where
  sessionID : String
deriving DecidableEq

/-- The generic `{code, message, response}` envelope (`LoginResponse`). -/
structure APIEnvelope where
  code : String
  message : String
  response : JsonValue

/-- `Client.Login` (client/client.go), as a state transformer over the
outcome of `makeRequest`: the round trip either fails before a body is
parsed (`Except.error`) or produces a parsed envelope.  The function
returns the new client state together with the error, if any; the only
assignment to `c.sessionID` in the source is on the full-success path. -/
def loginStep (st : ClientState) (transport : Except String APIEnvelope) :
    ClientState × Option String :=
  match transport with
  | .error e => (st, some ("login failed: " ++ e))
  | .ok env =>
    if env.code ≠ "ok" then (st, some ("login failed: " ++ env.message))
    else
      match env.response with
      | .jstr s => (⟨s⟩, none)
      | _ => (st, some "login failed: unexpected response type")

/-- Claim C10 (confirmed): `Login` mutates the stored session token only on
full success.  Whenever the round trip fails, the envelope code is not
`"ok"`, or the payload is not a string, an error is returned and the
previously stored token is unchanged; the token is set to the payload
exactly when the code is `"ok"` and the payload is a string. -/
theorem C10_login_token_mutation (st : ClientState)
    (transport : Except String APIEnvelope) :
    ((loginStep st transport).2.isSome → (loginStep st transport).1 = st)
    ∧ ((loginStep st transport).2 = none ↔
      ∃ env : APIEnvelope, transport = .ok env ∧ env.code = "ok"
        ∧ ∃ s : String, env.response = JsonValue.jstr s)
    ∧ (∀ (env : APIEnvelope) (s : String), transport = .ok env →
      env.code = "ok" → env.response = JsonValue.jstr s →
      loginStep st transport = (⟨s⟩, none)) := by
  refine ⟨?_, ?_, ?_⟩
  · intro h
    cases transport with
    | error e => rfl
    | ok env =>
      by_cases hc : env.code = "ok"
      · cases hr : env.response <;>
          simp [loginStep, hc, hr] at h ⊢
      · simp [loginStep, hc]
  · constructor
    · intro h
      cases transport with
      | error e => simp [loginStep] at h
      | ok env =>
        by_cases hc : env.code = "ok"
        · cases hr : env.response <;> simp [loginStep, hc, hr] at h ⊢
        · simp [loginStep, hc] at h
    · rintro ⟨env, rfl, hc, s, hr⟩
      simp [loginStep, hc, hr]
  · intro env s ht hc hr
    subst ht
    simp [loginStep, hc, hr]

/-- Claim C10, witness: a transport failure leaves a concrete stored token
unchanged, and a full success stores the payload. -/
theorem C10_witness :
    (loginStep ⟨"oldtoken"⟩ (Except.error "connection refused")).1 = ⟨"oldtoken"⟩
    ∧ loginStep ⟨"oldtoken"⟩
        (Except.ok ⟨"ok", "", JsonValue.jstr "newtoken"⟩) = (⟨"newtoken"⟩, none) :=
  ⟨(C10_login_token_mutation ⟨"oldtoken"⟩ (Except.error "connection refused")).1 rfl,
    (C10_login_token_mutation ⟨"oldtoken"⟩
        (Except.ok ⟨"ok", "", JsonValue.jstr "newtoken"⟩)).2.2
      ⟨"ok", "", JsonValue.jstr "newtoken"⟩ "newtoken" rfl rfl rfl⟩

/-- ASCII whitespace recognized by Go's `unicode.IsSpace` (restricted to
the ASCII range, which is all the descriptor strings contain). -/
def isSpaceChar (c : Char) : Bool :=
  c.toNat = 32 || c.toNat = 9 || c.toNat = 10 || c.toNat = 13 || c.toNat = 11 || c.toNat = 12

/-- Model of `strings.TrimSpace` on a character list. -/
def goTrimSpaceL (l : List Char) : List Char :=
  ((l.dropWhile isSpaceChar).reverse.dropWhile isSpaceChar).reverse

/-- ASCII lower-casing, the effect of Go's case folding on ASCII letters. -/
def asciiToLower (c : Char) : Char :=
  if 'A' ≤ c && c ≤ 'Z' then Char.ofNat (c.toNat + 32) else c

/-- Model of `strings.EqualFold` restricted to ASCII. -/
def eqFold (a b : List Char) : Bool :=
  a.map asciiToLower == b.map asciiToLower

/-- Model of `ParsePHPVersion` (client/client.go): take the segment before
the first colon (`strings.SplitN(info, ":", 2)`), trim whitespace, and if
it is longer than four characters and case-insensitively starts with
`"PHP "`, return the trimmed remainder; otherwise return the empty label,
which the discovery loop treats as a parse error. -/
def parsePHPVersion (info : List Char) : List Char :=
  let name := goTrimSpaceL (info.takeWhile (fun c => c ≠ ':'))
  if 4 < name.length ∧ eqFold (name.take 4) ['P', 'H', 'P', ' '] = true then
    goTrimSpaceL (name.drop 4)
  else []

/-- The parsing loop of `GetPHPVersions`: each descriptor is parsed and an
empty extracted label aborts the whole call with an error. -/
def getPHPVersionsParse : List (List Char) → Except String (List (List Char))
  | [] => .ok []
  | d :: ds =>
    let v := parsePHPVersion d
    if v = [] then .error "failed to extract PHP version"
    else
      match getPHPVersionsParse ds with
      | .ok vs => .ok (v :: vs)
      | .error e => .error e

/-- One insertion step of the `phpVersionToIDMap` construction in
`ensurePHPVersionMap` (resource_web_hosting.go): a Go map write. -/
def vmapStep (m : String → Option ℤ) (p : ℤ × String) : String → Option ℤ :=
  fun k => if k = p.2 then some p.1 else m k

/-- `phpVersionToIDMap` built by `ensurePHPVersionMap` from the discovered
id-to-version catalog, with the map modelled as a lookup function. -/
def phpVersionToIDFun (catalog : List (ℤ × String)) : String → Option ℤ :=
  catalog.foldl vmapStep (fun _ => none)

/-- `phpIDToVersion` (resource_web_hosting.go): look the id up in the
discovered catalog, returning the empty string when unknown. -/
def phpIDToVersion (catalog : List (ℤ × String)) (id : ℤ) : String :=
  match catalog.find? (fun p => p.1 = id) with
  | some p => p.2
  | none => ""

theorem foldl_vmapStep_notmem (l : List (ℤ × String)) (m : String → Option ℤ)
    (label : String) (h : label ∉ l.map Prod.snd) :
    (l.foldl vmapStep m) label = m label := by
  induction l generalizing m with
  | nil => rfl
  | cons p tl ih =>
    simp only [List.map_cons, List.mem_cons] at h
    push_neg at h
    rw [List.foldl_cons, ih (vmapStep m p) h.2]
    simp [vmapStep, h.1]

theorem foldl_vmapStep_mem (l : List (ℤ × String)) (m : String → Option ℤ)
    (label : String) (h : label ∈ l.map Prod.snd) :
    ∃ id : ℤ, (l.foldl vmapStep m) label = some id ∧ (id, label) ∈ l := by
  induction l generalizing m with
  | nil => simp at h
  | cons p tl ih =>
    by_cases htl : label ∈ tl.map Prod.snd
    · obtain ⟨id, hid, hmem⟩ := ih (vmapStep m p) htl
      exact ⟨id, hid, List.mem_cons_of_mem p hmem⟩
    · have hp : label = p.2 := by
        simp only [List.map_cons, List.mem_cons] at h
        tauto
      refine ⟨p.1, ?_, ?_⟩
      · rw [List.foldl_cons, foldl_vmapStep_notmem tl (vmapStep m p) label htl]
        simp [vmapStep, hp]
      · simp [hp]

theorem find?_fst_nodup (l : List (ℤ × String))
    (hnd : (l.map Prod.fst).Nodup) (id : ℤ) (label : String)
    (hm : (id, label) ∈ l) :
    l.find? (fun p => p.1 = id) = some (id, label) := by
  induction l with
  | nil => simp at hm
  | cons q tl ih =>
    simp only [List.map_cons, List.nodup_cons] at hnd
    by_cases hq : q.1 = id
    · have : q = (id, label) := by
        rcases List.mem_cons.mp hm with h | h
        · exact h.symm
        · exfalso
          exact hnd.1 (hq ▸ (List.mem_map.mpr ⟨(id, label), h, rfl⟩))
      rw [List.find?_cons_of_pos _ (by simp [hq]), this]
    · have hm' : (id, label) ∈ tl := by
        rcases List.mem_cons.mp hm with h | h
        · exact absurd (congrArg Prod.fst h.symm) hq
        · exact h
      rw [List.find?_cons_of_neg _ (by simp [hq])]
      exact ih hnd.2 hm'

/-- Claim C9 (confirmed): parsing the example descriptor yields the label
`"8.4"`; a descriptor whose name segment (before the first colon,
whitespace-trimmed) does not start with the case-insensitive `"PHP "`
marker is a parse error of the discovery call; and in the catalog
populated by discovery the label-to-id and id-to-label lookups are mutual
inverses for every label returned by discovery. -/
theorem C9_php_catalog (info : List Char) (catalog : List (ℤ × String)) :
    parsePHPVersion
        ("PHP 8.4:/etc/init.d/php8.4-fpm:/etc/php/8.4/fpm:/etc/php/8.4/fpm/pool.d"
          : String).data
      = ("8.4" : String).data
    ∧ (eqFold ((goTrimSpaceL (info.takeWhile (fun c => c ≠ ':'))).take 4)
          ['P', 'H', 'P', ' '] = false →
      parsePHPVersion info = []
      ∧ getPHPVersionsParse [info] = .error "failed to extract PHP version")
    ∧ ((catalog.map Prod.fst).Nodup →
      ∀ label : String, label ∈ catalog.map Prod.snd →
        ∃ id : ℤ, phpVersionToIDFun catalog label = some id
          ∧ phpIDToVersion catalog id = label) := by
  refine ⟨rfl, ?_, ?_⟩
  · intro hfold
    have hp : parsePHPVersion info = [] := by
      simp only [parsePHPVersion]
      rw [if_neg]
      intro hcon
      rw [hfold] at hcon
      exact Bool.false_ne_true hcon.2
    refine ⟨hp, ?_⟩
    simp [getPHPVersionsParse, hp]
  · intro hnd label hmem
    obtain ⟨id, hid, hpair⟩ := foldl_vmapStep_mem catalog (fun _ => none) label hmem
    refine ⟨id, hid, ?_⟩
    simp [phpIDToVersion, find?_fst_nodup catalog hnd id label hpair]

/-- Claim C9, witness: in the concrete discovered catalog
`{11 ↦ "8.4", 7 ↦ "7.0"}` the lookups invert each other on `"8.4"`, and a
descriptor with a non-`"PHP "` name segment makes discovery fail. -/
theorem C9_witness :
    (∃ id : ℤ, phpVersionToIDFun [((11 : ℤ), "8.4"), ((7 : ℤ), "7.0")] "8.4" = some id
      ∧ phpIDToVersion [((11 : ℤ), "8.4"), ((7 : ℤ), "7.0")] id = "8.4")
    ∧ getPHPVersionsParse [("FastCGI 8.4:/x" : String).data]
      = .error "failed to extract PHP version" :=
  ⟨(C9_php_catalog [] [((11 : ℤ), "8.4"), ((7 : ℤ), "7.0")]).2.2 (by decide)
      "8.4" (by decide),
    ((C9_php_catalog ("FastCGI 8.4:/x" : String).data []).2.1 (by decide)).2⟩

/-- Look a key up in a decoded JSON object, as Go field matching does for
the first occurrence. -/
def lookupField (fields : List (String × JsonValue)) (k : String) : Option JsonValue :=
  (fields.find? (fun p => p.1 = k)).map Prod.snd

/-- Modelled from the spec: the single-record cron-task get decoder
(`Client.GetCronJob`) is not under src/ (only its callers and the change
log are).  Per the response-unwrapping quirk of the Session Client
contract, a single-record get may return the record wrapped in a
one-element array, and the decoder must detect and transparently unwrap
that shape so callers always see a uniform object. -/
def unwrapSingleRecord (v : JsonValue) : JsonValue :=
  match v with
  | .jarr [x] => x
  | _ => v

/-- A normalized cron record as produced by the affected get decoder. -/
structure CronRecord where
  id : ℤ
  serverID : ℤ
  command : String
deriving DecidableEq

/-- Modelled from the spec: decoding of the cron-task get response into a
normalized record.  The id fields pass through the Flexible Scalar
Decoder (they arrive as number or numeric string); a missing field keeps
the struct's zero value; a non-object (after unwrapping) is a decoding
error. -/
def decodeCronRecord (v : JsonValue) : Except String CronRecord :=
  match unwrapSingleRecord v with
  | .jobj fields => do
    let id ← flexIntUnmarshalJSON 0 ((lookupField fields "cron_id").getD .jnull)
    let serverID ← flexIntUnmarshalJSON 0 ((lookupField fields "server_id").getD .jnull)
    let command :=
      match lookupField fields "command" with
      | some (.jstr s) => s
      | _ => ""
    pure ⟨id, serverID, command⟩
  | _ => .error "unexpected response shape"

/-- Claim C5 (confirmed, spec-modelled): decoding a bare record object and
decoding the same object wrapped as a one-element array yield identical
normalized records; the unwrapping is transparent. -/
theorem C5_array_unwrap_transparent (fields : List (String × JsonValue)) :
    decodeCronRecord (JsonValue.jarr [JsonValue.jobj fields])
      = decodeCronRecord (JsonValue.jobj fields) := rfl

/-- The `MailUser` wire struct (client/types.go).  String and FlexInt
fields; Go zero values are the empty string and `0`. -/
structure MailUserWire where
  id : ℤ := 0
  serverID : ℤ := 0
  mailDomainID : ℤ := 0
  email : String := ""
  login : String := ""
  password : String := ""
  maildir : String := ""
  quota : ℤ := 0
  active : String := ""
  cc : String := ""
  senderCC : String := ""
  moveJunk : String := ""
  purgeTrashDays : String := ""
  purgeJunkDays : String := ""

/-- JSON serialization of `MailUser` following its struct tags: fields
tagged `omitempty` are dropped at their zero value, while `email`,
`move_junk`, `purge_trash_days` and `purge_junk_days` are always present. -/
def mailUserJSON (u : MailUserWire) : List (String × JsonValue) :=
  (if u.id ≠ 0 then [("mailuser_id", JsonValue.jnum u.id false)] else [])
  ++ (if u.serverID ≠ 0 then [("server_id", JsonValue.jnum u.serverID false)] else [])
  ++ (if u.mailDomainID ≠ 0 then [("maildomain_id", JsonValue.jnum u.mailDomainID false)] else [])
  ++ [("email", JsonValue.jstr u.email)]
  ++ (if u.login ≠ "" then [("login", JsonValue.jstr u.login)] else [])
  ++ (if u.password ≠ "" then [("password", JsonValue.jstr u.password)] else [])
  ++ (if u.maildir ≠ "" then [("maildir", JsonValue.jstr u.maildir)] else [])
  ++ (if u.quota ≠ 0 then [("quota", JsonValue.jnum u.quota false)] else [])
  ++ (if u.active ≠ "" then [("active", JsonValue.jstr u.active)] else [])
  ++ (if u.cc ≠ "" then [("cc", JsonValue.jstr u.cc)] else [])
  ++ (if u.senderCC ≠ "" then [("sender_cc", JsonValue.jstr u.senderCC)] else [])
  ++ [("move_junk", JsonValue.jstr u.moveJunk),
      ("purge_trash_days", JsonValue.jstr u.purgeTrashDays),
      ("purge_junk_days", JsonValue.jstr u.purgeJunkDays)]

/-- The plan attributes `emailInboxResource.Create` and `Update` read. -/
structure InboxPlan where
  mailDomainID : ℤ
  email : String
  password : String
  quota : Option ℤ
  serverID : Option ℤ
  forwardIncomingTo : Option String
  forwardOutgoingTo : Option String

/-- The `MailUser` struct literal built by `emailInboxResource.Create` and
(identically) by `Update` (resource_email_inbox.go): `MoveJunk` is pinned
to `"n"`, the purge fields keep their zero value, and the server id falls
back to the provider default when nonzero. -/
def buildMailUserPayload (provServerID : ℤ) (plan : InboxPlan) : MailUserWire :=
  { mailDomainID := plan.mailDomainID
    email := plan.email
    login := plan.email
    password := plan.password
    moveJunk := "n"
    quota := plan.quota.getD 0
    serverID :=
      match plan.serverID with
      | some v => v
      | none => if provServerID ≠ 0 then provServerID else 0
    cc := plan.forwardIncomingTo.getD ""
    senderCC := plan.forwardOutgoingTo.getD "" }

/-- Modelled from the spec: `Client.AddMailUser` / `Client.UpdateMailUser`
are not under src/ (only the wire struct, its callers and the change log
are).  Per the allowlist contract, the `mail_user` columns reject empty
strings, so the client always sends the purge interval fields as `"0"`
(never purge) and `move_junk` as `"n"` when they were left unset. -/
def normalizeMailUser (u : MailUserWire) : MailUserWire :=
  { u with
    moveJunk := if u.moveJunk = "" then "n" else u.moveJunk
    purgeTrashDays := if u.purgeTrashDays = "" then "0" else u.purgeTrashDays
    purgeJunkDays := if u.purgeJunkDays = "" then "0" else u.purgeJunkDays }

/-- The wire payload of a mailbox Add or Update round trip. -/
def mailUserPayload (provServerID : ℤ) (plan : InboxPlan) : List (String × JsonValue) :=
  mailUserJSON (normalizeMailUser (buildMailUserPayload provServerID plan))

/-- The `MailDomain` wire struct (client/types.go). -/
structure MailDomainWire where
  id : ℤ := 0
  serverID : ℤ := 0
  domain : String := ""
  active : String := ""
  localDelivery : String := ""

/-- JSON serialization of `MailDomain` following its struct tags: `active`
and `local_delivery` carry no `omitempty` and are always present. -/
def mailDomainJSON (d : MailDomainWire) : List (String × JsonValue) :=
  (if d.id ≠ 0 then [("maildomain_id", JsonValue.jnum d.id false)] else [])
  ++ (if d.serverID ≠ 0 then [("server_id", JsonValue.jnum d.serverID false)] else [])
  ++ [("domain", JsonValue.jstr d.domain),
      ("active", JsonValue.jstr d.active),
      ("local_delivery", JsonValue.jstr d.localDelivery)]

/-- The plan attributes `emailDomainResource.Create` and `Update` read. -/
structure DomainPlan where
  domain : String
  serverID : Option ℤ
  active : Option String

/-- The `MailDomain` struct literal built by `emailDomainResource.Create`
(resource_email_domain.go): `active` defaults to `"y"` when unset. -/
def buildMailDomainCreate (provServerID : ℤ) (p : DomainPlan) : MailDomainWire :=
  { domain := p.domain
    serverID :=
      match p.serverID with
      | some v => v
      | none => if provServerID ≠ 0 then provServerID else 0
    active := p.active.getD "y" }

/-- The `MailDomain` struct literal built by `emailDomainResource.Update`
(resource_email_domain.go): `active` keeps its zero value when unset. -/
def buildMailDomainUpdate (p : DomainPlan) : MailDomainWire :=
  { domain := p.domain
    serverID := p.serverID.getD 0
    active := p.active.getD "" }

/-- Modelled from the spec: `Client.AddMailDomain` / `UpdateMailDomain`
are not under src/.  Per the allowlist contract (and the change log's
`active` / `local_delivery` fixes), the client always sends `active`
(defaulting to `"y"`, active) and `local_delivery` (defaulting to `"y"`,
deliver locally) with explicit values. -/
def normalizeMailDomain (d : MailDomainWire) : MailDomainWire :=
  { d with
    active := if d.active = "" then "y" else d.active
    localDelivery := if d.localDelivery = "" then "y" else d.localDelivery }

/-- The wire payload of a mail-domain Add round trip. -/
def mailDomainAddPayload (provServerID : ℤ) (p : DomainPlan) : List (String × JsonValue) :=
  mailDomainJSON (normalizeMailDomain (buildMailDomainCreate provServerID p))

/-- The wire payload of a mail-domain Update round trip. -/
def mailDomainUpdatePayload (p : DomainPlan) : List (String × JsonValue) :=
  mailDomainJSON (normalizeMailDomain (buildMailDomainUpdate p))

theorem mailUserJSON_moveJunk (u : MailUserWire) (v : JsonValue)
    (h : ("move_junk", v) ∈ mailUserJSON u) : v = JsonValue.jstr u.moveJunk := by
  simp only [mailUserJSON, List.mem_append] at h
  rcases h with ((((((((((h | h) | h) | h) | h) | h) | h) | h) | h) | h) | h) <;>
    first
      | (split at h <;> simp_all)
      | simp_all

theorem mailUserJSON_purgeTrash (u : MailUserWire) (v : JsonValue)
    (h : ("purge_trash_days", v) ∈ mailUserJSON u) :
    v = JsonValue.jstr u.purgeTrashDays := by
  simp only [mailUserJSON, List.mem_append] at h
  rcases h with ((((((((((h | h) | h) | h) | h) | h) | h) | h) | h) | h) | h) <;>
    first
      | (split at h <;> simp_all)
      | simp_all

theorem mailUserJSON_purgeJunk (u : MailUserWire) (v : JsonValue)
    (h : ("purge_junk_days", v) ∈ mailUserJSON u) :
    v = JsonValue.jstr u.purgeJunkDays := by
  simp only [mailUserJSON, List.mem_append] at h
  rcases h with ((((((((((h | h) | h) | h) | h) | h) | h) | h) | h) | h) | h) <;>
    first
      | (split at h <;> simp_all)
      | simp_all

theorem mailDomainJSON_active (d : MailDomainWire) (v : JsonValue)
    (h : ("active", v) ∈ mailDomainJSON d) : v = JsonValue.jstr d.active := by
  simp only [mailDomainJSON, List.mem_append] at h
  rcases h with ((h | h) | h) <;>
    first
      | (split at h <;> simp_all)
      | simp_all

theorem mailDomainJSON_localDelivery (d : MailDomainWire) (v : JsonValue)
    (h : ("local_delivery", v) ∈ mailDomainJSON d) :
    v = JsonValue.jstr d.localDelivery := by
  simp only [mailDomainJSON, List.mem_append] at h
  rcases h with ((h | h) | h) <;>
    first
      | (split at h <;> simp_all)
      | simp_all

theorem normalizeMailDomain_active_ne (d : MailDomainWire) :
    (normalizeMailDomain d).active ≠ "" := by
  simp only [normalizeMailDomain]
  split <;> simp_all

/-- Claim C4 (confirmed, spec-modelled): every mailbox Add/Update payload
carries explicit non-empty values for `move_junk`, `purge_trash_days` and
`purge_junk_days`, and every mail-domain Add/Update payload carries
explicit non-empty values for `active` and `local_delivery`; none of these
allowlisted fields is omitted or sent empty. -/
theorem C4_explicit_allowlist (provServerID : ℤ) (plan : InboxPlan) (p : DomainPlan) :
    (("move_junk", JsonValue.jstr "n") ∈ mailUserPayload provServerID plan)
    ∧ (("purge_trash_days", JsonValue.jstr "0") ∈ mailUserPayload provServerID plan)
    ∧ (("purge_junk_days", JsonValue.jstr "0") ∈ mailUserPayload provServerID plan)
    ∧ (∀ v : JsonValue, ("move_junk", v) ∈ mailUserPayload provServerID plan →
      v ≠ JsonValue.jstr "")
    ∧ (∀ v : JsonValue, ("purge_trash_days", v) ∈ mailUserPayload provServerID plan →
      v ≠ JsonValue.jstr "")
    ∧ (∀ v : JsonValue, ("purge_junk_days", v) ∈ mailUserPayload provServerID plan →
      v ≠ JsonValue.jstr "")
    ∧ (("active", JsonValue.jstr (normalizeMailDomain
        (buildMailDomainCreate provServerID p)).active) ∈ mailDomainAddPayload provServerID p)
    ∧ (("local_delivery", JsonValue.jstr "y") ∈ mailDomainAddPayload provServerID p)
    ∧ (("active", JsonValue.jstr (normalizeMailDomain
        (buildMailDomainUpdate p)).active) ∈ mailDomainUpdatePayload p)
    ∧ (("local_delivery", JsonValue.jstr "y") ∈ mailDomainUpdatePayload p)
    ∧ (∀ v : JsonValue, ("active", v) ∈ mailDomainAddPayload provServerID p →
      v ≠ JsonValue.jstr "")
    ∧ (∀ v : JsonValue, ("active", v) ∈ mailDomainUpdatePayload p →
      v ≠ JsonValue.jstr "")
    ∧ (∀ v : JsonValue, ("local_delivery", v) ∈ mailDomainAddPayload provServerID p →
      v ≠ JsonValue.jstr "")
    ∧ (∀ v : JsonValue, ("local_delivery", v) ∈ mailDomainUpdatePayload p →
      v ≠ JsonValue.jstr "") := by
  have hmj : (normalizeMailUser (buildMailUserPayload provServerID plan)).moveJunk = "n" := rfl
  have hpt : (normalizeMailUser (buildMailUserPayload provServerID plan)).purgeTrashDays
      = "0" := rfl
  have hpj : (normalizeMailUser (buildMailUserPayload provServerID plan)).purgeJunkDays
      = "0" := rfl
  have hldA : (normalizeMailDomain (buildMailDomainCreate provServerID p)).localDelivery
      = "y" := rfl
  have hldU : (normalizeMailDomain (buildMailDomainUpdate p)).localDelivery = "y" := rfl
  refine ⟨?_, ?_, ?_, ?_, ?_, ?_, ?_, ?_, ?_, ?_, ?_, ?_, ?_, ?_⟩
  · rw [← hmj]; simp [mailUserPayload, mailUserJSON]
  · rw [← hpt]; simp [mailUserPayload, mailUserJSON]
  · rw [← hpj]; simp [mailUserPayload, mailUserJSON]
  · intro v hv
    rw [mailUserJSON_moveJunk _ v hv, hmj]
    simp
  · intro v hv
    rw [mailUserJSON_purgeTrash _ v hv, hpt]
    simp
  · intro v hv
    rw [mailUserJSON_purgeJunk _ v hv, hpj]
    simp
  · simp [mailDomainAddPayload, mailDomainJSON]
  · rw [← hldA]; simp [mailDomainAddPayload, mailDomainJSON]
  · simp [mailDomainUpdatePayload, mailDomainJSON]
  · rw [← hldU]; simp [mailDomainUpdatePayload, mailDomainJSON]
  · intro v hv
    rw [mailDomainJSON_active _ v hv]
    simp [normalizeMailDomain_active_ne]
  · intro v hv
    rw [mailDomainJSON_active _ v hv]
    simp [normalizeMailDomain_active_ne]
  · intro v hv
    rw [mailDomainJSON_localDelivery _ v hv, hldA]
    simp
  · intro v hv
    rw [mailDomainJSON_localDelivery _ v hv, hldU]
    simp

/-- Claim C4, witness: a concrete mailbox create payload carries
`move_junk = "n"`, which is in particular not the empty value. -/
theorem C4_witness :
    ("move_junk", JsonValue.jstr "n")
        ∈ mailUserPayload 1 ⟨5, "a@b.example", "pw", none, none, none, none⟩
    ∧ JsonValue.jstr "n" ≠ JsonValue.jstr "" :=
  ⟨(C4_explicit_allowlist 1 ⟨5, "a@b.example", "pw", none, none, none, none⟩
      ⟨"b.example", none, none⟩).1,
    (C4_explicit_allowlist 1 ⟨5, "a@b.example", "pw", none, none, none, none⟩
      ⟨"b.example", none, none⟩).2.2.2.1 (JsonValue.jstr "n")
      (C4_explicit_allowlist 1 ⟨5, "a@b.example", "pw", none, none, none, none⟩
        ⟨"b.example", none, none⟩).1⟩

/-- `strings.Trim(s, "/")`: drop leading and trailing slash characters. -/
def trimSlashes (l : List Char) : List Char :=
  ((l.dropWhile (fun c => c = '/')).reverse.dropWhile (fun c => c = '/')).reverse

/-- The segment-stack pass of Go's lexical `path.Clean`: empty and `.`
segments are dropped, `..` pops a poppable segment, is ignored at the
root, and is kept when the path is relative with nothing to pop. -/
def goCleanSegs (rooted : Bool) (segs : List (List Char)) : List (List Char) :=
  segs.foldl
    (fun out seg =>
      if seg = [] ∨ seg = ['.'] then out
      else if seg = ['.', '.'] then
        if out ≠ [] ∧ out.getLast? ≠ some ['.', '.'] then out.dropLast
        else if rooted then out
        else out ++ [seg]
      else out ++ [seg])
    []

/-- Model of Go's `filepath.Clean` on Unix: split on `/`, run the segment
stack, and reassemble, mapping the empty result to `/` (rooted) or `.`. -/
def goClean (l : List Char) : List Char :=
  if l = [] then ['.']
  else
    let rooted := l.head? = some '/'
    let body := List.intercalate ['/'] (goCleanSegs rooted (l.splitOn '/'))
    if rooted then '/' :: body
    else if body = [] then ['.'] else body

/-- Model of Go's `filepath.Join` for two elements: empty elements are
skipped and the slash-joined remainder is cleaned. -/
def goJoin (a b : List Char) : List Char :=
  if a = [] ∧ b = [] then []
  else if a = [] then goClean b
  else if b = [] then goClean a
  else goClean (a ++ '/' :: b)

/-- `combineDocumentRoot` (resource_web_hosting.go): an empty subdirectory
returns the base path unchanged; otherwise the subdirectory is trimmed of
leading/trailing slashes and joined onto the base with `filepath.Join`. -/
def combineDocumentRoot (basePath subdir : List Char) : List Char :=
  if subdir = [] then basePath
  else goJoin basePath (trimSlashes subdir)

/-- `strings.HasSuffix`. -/
def hasSuffixL (l suf : List Char) : Bool := decide (suf <:+ l)

/-- `strings.TrimSuffix`: drop the suffix when present, else return the
string unchanged. -/
def trimSuffixL (l suf : List Char) : List Char :=
  if suf <:+ l then l.take (l.length - suf.length) else l

/-- The reverse composition in `webHostingResource.Update`: trim the
previously applied subdirectory, and when the stored document root ends in
it, strip `"/" ++ subdir` as a suffix to recover the base path. -/
def stripOldSubdir (basePath stateSubdir : List Char) : List Char :=
  let old := trimSlashes stateSubdir
  if hasSuffixL basePath old then trimSuffixL basePath ('/' :: old) else basePath

/-- Claim C6, counterexample: with the base path `"/var/www/"` (trailing
slash) and subdirectory `"web"`, `filepath.Join` cleans the combined path
to `"/var/www/web"`, and stripping the subdirectory yields `"/var/www"`,
not the original base path `"/var/www/"` — the round trip does not hold
for every base path. -/
theorem C6_counterexample :
    stripOldSubdir
        (combineDocumentRoot ("/var/www/" : String).data ("web" : String).data)
        ("web" : String).data
      ≠ ("/var/www/" : String).data := by decide

/-- Claim C6 (amended): `Combine` trims leading/trailing slashes from the
subdirectory and joins it onto the base path, returning the base unchanged
for an empty subdirectory, and the documented example holds; stripping a
previously applied non-empty subdirectory recovers the original base path
whenever the join was verbatim, i.e. for clean inputs where path cleaning
leaves `base ++ "/" ++ trimmedSubdir` unchanged (for non-clean inputs,
e.g. a base path with a trailing slash, recovery can fail, as the
counterexample shows). -/
theorem C6_combine_strip_roundtrip (base subdir : List Char)
    (hbase : base ≠ [])
    (ht : trimSlashes subdir ≠ [])
    (hclean : goClean (base ++ '/' :: trimSlashes subdir)
      = base ++ '/' :: trimSlashes subdir) :
    combineDocumentRoot ("/var/www/clients/client2/web10" : String).data
        ("web/public" : String).data
      = ("/var/www/clients/client2/web10/web/public" : String).data
    ∧ (∀ b : List Char, combineDocumentRoot b [] = b)
    ∧ combineDocumentRoot base subdir = base ++ '/' :: trimSlashes subdir
    ∧ stripOldSubdir (combineDocumentRoot base subdir) subdir = base := by
  have hsub : subdir ≠ [] := by
    intro h
    exact ht (by simp [h, trimSlashes])
  have hcomb : combineDocumentRoot base subdir = base ++ '/' :: trimSlashes subdir := by
    rw [combineDocumentRoot, if_neg hsub, goJoin, if_neg (by tauto),
      if_neg hbase, if_neg ht, hclean]
  refine ⟨by decide, fun b => by simp [combineDocumentRoot], hcomb, ?_⟩
  rw [hcomb]
  have hsf : trimSlashes subdir <:+ base ++ '/' :: trimSlashes subdir :=
    ⟨base ++ ['/'], by simp⟩
  have hsf2 : '/' :: trimSlashes subdir <:+ base ++ '/' :: trimSlashes subdir :=
    ⟨base, rfl⟩
  rw [stripOldSubdir]
  simp only [hasSuffixL, decide_eq_true hsf, if_pos]
  rw [trimSuffixL, if_pos hsf2]
  simp only [List.length_append, List.length_cons]
  have hlen : base.length + ((trimSlashes subdir).length + 1)
      - ((trimSlashes subdir).length + 1) = base.length := by omega
  rw [hlen]
  exact List.take_left base ('/' :: trimSlashes subdir)

/-- Claim C6, witness: the round trip at the documented example inputs. -/
theorem C6_witness :
    stripOldSubdir
        (combineDocumentRoot ("/var/www/clients/client2/web10" : String).data
          ("web/public" : String).data)
        ("web/public" : String).data
      = ("/var/www/clients/client2/web10" : String).data :=
  (C6_combine_strip_roundtrip ("/var/www/clients/client2/web10" : String).data
      ("web/public" : String).data (by decide) (by decide) (by decide)).2.2.2
